import Mathlib

/-!
Verification of the evida seismic-event manager.

Shallow embedding of the Go sources of `evida_sismos_manager_go`:

* `internal/models/earthquake.go` — the `Earthquake`, `Point`, `Polygon` records;
* `internal/geometry/polygon.go` — ray-casting point-in-polygon and the
  `CategorizeEarthquake` ordered decision list;
* `internal/geometry/regions_data.go` — the process-global `regionData`
  (modelled as an explicit `Option RegionData` argument);
* `internal/manager/earthquake_manager.go` — the deduplicating store
  (`AddEarthquake`, `AddEarthquakes`, `GetAll`, `GetByOceano`, `GetByRegion`,
  `GetByTimeRange`, `GetCount`, `CleanOld`);
* the websocket hub (`Hub.Run` broadcast case and `BroadcastEarthquake`).

Go `float64` coordinates are embedded as `ℚ` (the algorithms use only field
operations and comparisons), `time.Time` instants as `ℤ` (seconds; `Before` /
`After` become `<` / `>`), the Go map `map[string]Earthquake` as an
association list with unique keys maintained by the operations, and buffered
channels as explicit queues with a capacity.
-/

/-- `models.Point`: a geographic point, `Lat`/`Lon` in degrees. -/
structure Point where
  lat : ℚ
  lon : ℚ
  deriving DecidableEq, Repr

/-- `models.Polygon`: an ordered list of points, implicitly closed. -/
abbrev Polygon := List Point

/-- `models.Earthquake`. Fields not used by any verified operation
(magnitude, location, depth, URL) are kept to mirror the record shape. -/
structure Earthquake where
  id : String
  magnitude : ℚ
  location : String
  latitude : ℚ
  longitude : ℚ
  depth : ℚ
  time : ℤ
  source : String
  oceano : String := ""
  oceanoRegion : String := ""
  url : String := ""
  deriving DecidableEq, Repr

/-- `geometry.rayIntersectsSegment`: does the rightward horizontal ray from
`point` cross the segment `p1`–`p2`?  Faithful to the Go body: the straddle
test `(p1.Lat > point.Lat) == (p2.Lat > point.Lat)` rejects first, then the
interpolated longitude `p1.Lon + (point.Lat-p1.Lat)*slope` is compared. -/
def rayIntersectsSegment (point p1 p2 : Point) : Bool :=
  if (decide (p1.lat > point.lat)) == (decide (p2.lat > point.lat)) then
    false
  else
    let slope := (p2.lon - p1.lon) / (p2.lat - p1.lat)
    let intersectionLon := p1.lon + (point.lat - p1.lat) * slope
    decide (point.lon < intersectionLon)

/-- `geometry.PointInPolygon`: ray casting; a polygon with fewer than 3
points contains nothing, otherwise the point is inside iff the number of
edges (closing the loop modulo the length) crossed by the ray is odd. -/
def PointInPolygon (point : Point) (polygon : Polygon) : Bool :=
  if polygon.length < 3 then
    false
  else
    let n := polygon.length
    let intersections :=
      (List.range n).countP fun i =>
        rayIntersectsSegment point (polygon.getD i ⟨0, 0⟩)
          (polygon.getD ((i + 1) % n) ⟨0, 0⟩)
    intersections % 2 == 1

/-- `geometry.RegionData`: all configured region polygons. -/
structure RegionData where
  latlonCPWorld : Polygon := []
  latlonPacificoLocal : Polygon := []
  latlonPacificoRegional : Polygon := []
  latlonPacificoLocal20Km : Polygon := []
  latlonCCWorld : List Polygon := []
  latlonCaribeRegional : List Polygon := []
  latlonCaribeLocal : Polygon := []
  latlonCaribeLocalInsular : Polygon := []
  deriving Repr

/-- `geometry.evaluarPuntosMultiples`: membership in any polygon of a group. -/
def evaluarPuntosMultiples (point : Point) (polygons : List Polygon) : Bool :=
  polygons.any fun polygon => PointInPolygon point polygon

/-- `geometry.determinarRegionPacifico`: sub-region inside the Pacific CP
world polygon — local, else regional, else lejano. -/
def determinarRegionPacifico (data : RegionData) (point : Point) : String :=
  if PointInPolygon point data.latlonPacificoLocal then "local"
  else if PointInPolygon point data.latlonPacificoRegional then "regional"
  else "lejano"

/-- `geometry.CategorizeEarthquake`: the ordered decision list assigning
`Oceano`/`OceanoRegion`.  The Go global `regionData` pointer is the explicit
first argument; `none` embeds the never-loaded state, in which the Go
function logs and returns without touching the record. -/
def CategorizeEarthquake (rd : Option RegionData) (eq : Earthquake) : Earthquake :=
  match rd with
  | none => eq
  | some data =>
    let point : Point := ⟨eq.latitude, eq.longitude⟩
    if PointInPolygon point data.latlonCPWorld then
      { eq with oceano := "Pacifico",
                oceanoRegion := determinarRegionPacifico data point }
    else if PointInPolygon point data.latlonPacificoLocal then
      { eq with oceano := "Pacifico", oceanoRegion := "local" }
    else if data.latlonPacificoRegional.length > 0
        && PointInPolygon point data.latlonPacificoRegional then
      { eq with oceano := "Pacifico", oceanoRegion := "regional" }
    else if data.latlonPacificoLocal20Km.length > 0
        && PointInPolygon point data.latlonPacificoLocal20Km then
      { eq with oceano := "Pacifico", oceanoRegion := "local" }
    else if evaluarPuntosMultiples point data.latlonCCWorld then
      { eq with oceano := "Caribe", oceanoRegion := "lejano" }
    else if evaluarPuntosMultiples point data.latlonCaribeRegional then
      { eq with oceano := "Caribe", oceanoRegion := "regional" }
    else if PointInPolygon point data.latlonCaribeLocal
        || PointInPolygon point data.latlonCaribeLocalInsular then
      { eq with oceano := "Caribe", oceanoRegion := "local" }
    else
      { eq with oceano := "Uncategorized", oceanoRegion := "Uncategorized" }

/-- The unit square of the spec's point-in-polygon test fixture. -/
def squarePolygon : Polygon :=
  [⟨0, 0⟩, ⟨0, 10⟩, ⟨10, 10⟩, ⟨10, 0⟩]

/-- The spec's words for one edge test: the point's latitude lies strictly
between the endpoints' latitudes (exclusive-or of the two strict
comparisons) and the linearly interpolated longitude of the edge at the
point's latitude is strictly greater than the point's longitude. -/
def edgeCrossesSpec (point p1 p2 : Point) : Prop :=
  Xor' (p1.lat > point.lat) (p2.lat > point.lat) ∧
    point.lon <
      p1.lon + (point.lat - p1.lat) * ((p2.lon - p1.lon) / (p2.lat - p1.lat))

instance (point p1 p2 : Point) : Decidable (edgeCrossesSpec point p1 p2) := by
  unfold edgeCrossesSpec
  infer_instance

/-- The spec's words for point-in-polygon: at least 3 vertices, and an odd
number of edges — consecutive vertex pairs, closing the loop — crossed. -/
def pointInPolygonSpec (point : Point) (polygon : Polygon) : Prop :=
  3 ≤ polygon.length ∧
    Odd ((polygon.zip (polygon.rotate 1)).countP
      fun e => decide (edgeCrossesSpec point e.1 e.2))

/-- The spec's description of the classifier as an ordered decision list:
guards in the fixed order Pacific world/belt (with nested local → regional
→ distant resolution), Pacific local, Pacific regional, Pacific local-20km,
Caribbean world group, Caribbean regional group, Caribbean local-or-insular,
each with its (basin, region) outcome. -/
def classifyDecisionList (data : RegionData) (point : Point) :
    List (Bool × String × String) :=
  [ (PointInPolygon point data.latlonCPWorld,
      "Pacifico", determinarRegionPacifico data point)
  , (PointInPolygon point data.latlonPacificoLocal, "Pacifico", "local")
  , (data.latlonPacificoRegional.length > 0
      && PointInPolygon point data.latlonPacificoRegional,
      "Pacifico", "regional")
  , (data.latlonPacificoLocal20Km.length > 0
      && PointInPolygon point data.latlonPacificoLocal20Km,
      "Pacifico", "local")
  , (evaluarPuntosMultiples point data.latlonCCWorld, "Caribe", "lejano")
  , (evaluarPuntosMultiples point data.latlonCaribeRegional,
      "Caribe", "regional")
  , (PointInPolygon point data.latlonCaribeLocal
      || PointInPolygon point data.latlonCaribeLocalInsular,
      "Caribe", "local") ]

/-- First-match-wins evaluation of a decision list; no match at all is the
unclassified outcome. -/
def firstMatch : List (Bool × String × String) → String × String
  | [] => ("Uncategorized", "Uncategorized")
  | (g, r) :: rest => if g then r else firstMatch rest

/-- `manager.EarthquakeManager`: the Go map `ID -> Earthquake` is an
association list (insertion order; keys kept unique by `AddEarthquake`),
the buffered channel `newEarthquakeChan` an explicit queue plus capacity. -/
structure EarthquakeManager where
  earthquakes : List (String × Earthquake)
  maxAge : ℤ
  chanCapacity : ℕ
  newEarthquakeChan : List Earthquake
  deriving DecidableEq, Repr

/-- `manager.NewEarthquakeManager`: empty store, channel buffer of 100. -/
def NewEarthquakeManager (maxAge : ℤ) : EarthquakeManager :=
  { earthquakes := []
    maxAge := maxAge
    chanCapacity := 100
    newEarthquakeChan := [] }

/-- The rejection condition of `AddEarthquake` (its lines 46–47): either
label empty or the `Uncategorized` sentinel. -/
def uncategorizedCheck (eq : Earthquake) : Bool :=
  eq.oceano == "" || eq.oceano == "Uncategorized"
    || eq.oceanoRegion == "" || eq.oceanoRegion == "Uncategorized"

/-- `manager.AddEarthquake`: reject duplicates by ID, categorize, reject
uncategorized, else insert and non-blocking-send on the channel (a buffered
channel send succeeds exactly when the buffer has free space; on a full
buffer the `select` default drops the notification). -/
def AddEarthquake (rd : Option RegionData) (em : EarthquakeManager)
    (eq0 : Earthquake) : Bool × EarthquakeManager :=
  if (em.earthquakes.lookup eq0.id).isSome then
    (false, em)
  else
    let eq := CategorizeEarthquake rd eq0
    if uncategorizedCheck eq then
      (false, em)
    else
      let em1 := { em with earthquakes := em.earthquakes ++ [(eq.id, eq)] }
      let em2 :=
        if em1.newEarthquakeChan.length < em1.chanCapacity then
          { em1 with newEarthquakeChan := em1.newEarthquakeChan ++ [eq] }
        else
          em1
      (true, em2)

/-- `manager.AddEarthquakes`: fold `AddEarthquake` over the batch in order,
collecting the inputs that were newly accepted (the Go loop appends the
original, pre-categorization record). -/
def AddEarthquakes (rd : Option RegionData) (em : EarthquakeManager) :
    List Earthquake → List Earthquake × EarthquakeManager
  | [] => ([], em)
  | e :: rest =>
    let r := AddEarthquake rd em e
    let rr := AddEarthquakes rd r.2 rest
    (if r.1 then e :: rr.1 else rr.1, rr.2)

/-- The categorized filter of `GetAll`/`GetCount`, written as in the Go
condition. -/
def isCategorized (eq : Earthquake) : Bool :=
  eq.oceano != "" && eq.oceano != "Uncategorized"
    && eq.oceanoRegion != "" && eq.oceanoRegion != "Uncategorized"

/-- The descending-time order used by the query sorts: `a` before `b` when
`b.time ≤ a.time` (the Go comparator `earthquakes[i].Time.After(...)` sorts
most recent first; ties have unspecified order). -/
def timeGE (a b : Earthquake) : Prop := b.time ≤ a.time

instance : DecidableRel timeGE := fun a b => Int.decLe b.time a.time

instance : IsTotal Earthquake timeGE := ⟨fun a b => le_total b.time a.time⟩

instance : IsTrans Earthquake timeGE := ⟨fun _ _ _ h1 h2 => le_trans h2 h1⟩

/-- The `sort.Slice(..., Time.After)` step of the query operations. -/
def sortByTimeDesc (l : List Earthquake) : List Earthquake :=
  l.insertionSort timeGE

/-- `manager.GetAll`: collect categorized events, sort by time descending. -/
def GetAll (em : EarthquakeManager) : List Earthquake :=
  sortByTimeDesc ((em.earthquakes.map Prod.snd).filter isCategorized)

/-- `manager.GetByOceano`. -/
def GetByOceano (em : EarthquakeManager) (oceano : String) : List Earthquake :=
  sortByTimeDesc ((em.earthquakes.map Prod.snd).filter
    fun eq => eq.oceano == oceano)

/-- `manager.GetByRegion`. -/
def GetByRegion (em : EarthquakeManager) (region : String) : List Earthquake :=
  sortByTimeDesc ((em.earthquakes.map Prod.snd).filter
    fun eq => eq.oceanoRegion == region)

/-- `manager.GetByTimeRange`: strictly after `start`, strictly before `end`. -/
def GetByTimeRange (em : EarthquakeManager) (start stop : ℤ) : List Earthquake :=
  sortByTimeDesc ((em.earthquakes.map Prod.snd).filter
    fun eq => decide (start < eq.time) && decide (eq.time < stop))

/-- `manager.GetCount`: number of categorized events in the store. -/
def GetCount (em : EarthquakeManager) : ℕ :=
  (em.earthquakes.map Prod.snd).countP isCategorized

/-- `manager.CleanOld`: delete every entry with `eq.Time.Before(cutoff)`,
`cutoff = now - maxAge`, count deletions.  The Go method reads the wall
clock; the instant is the explicit `now` argument here. -/
def CleanOld (em : EarthquakeManager) (now : ℤ) : ℕ × EarthquakeManager :=
  let cutoff := now - em.maxAge
  ( em.earthquakes.countP fun p => decide (p.2.time < cutoff)
  , { em with
      earthquakes := em.earthquakes.filter fun p => !decide (p.2.time < cutoff) } )

/-- Manager states reachable from a fresh manager by any sequence of
ingestion and eviction operations (the region configuration may differ per
call, which only widens the set of reachable states). -/
inductive Reachable : EarthquakeManager → Prop
  | init (maxAge : ℤ) : Reachable (NewEarthquakeManager maxAge)
  | add (rd : Option RegionData) (eq : Earthquake) {em : EarthquakeManager} :
      Reachable em → Reachable (AddEarthquake rd em eq).2
  | addMany (rd : Option RegionData) (eqs : List Earthquake)
      {em : EarthquakeManager} :
      Reachable em → Reachable (AddEarthquakes rd em eqs).2
  | clean (now : ℤ) {em : EarthquakeManager} :
      Reachable em → Reachable (CleanOld em now).2

/-- `websocket.Message`: the broadcast envelope.  The hub marshals it to
JSON once per broadcast; the payload is modelled by the envelope value
itself, so "same serialized payload" is "same `HubMessage` value". -/
structure HubMessage where
  type : String
  data : Earthquake
  deriving DecidableEq, Repr

/-- `websocket.Client`: the private `send` queue (buffered channel) of one
subscriber session, with its capacity (256 in `ServeWs`). -/
structure Client where
  send : List HubMessage
  sendCap : ℕ
  deriving DecidableEq, Repr

/-- One client's fate in the `Hub.Run` broadcast case: the `select` enqueues
when the buffered channel has free space, otherwise the default branch
closes the channel and deletes the client from the set. -/
def trySend (c : Client) (message : HubMessage) : Option Client :=
  if c.send.length < c.sendCap then
    some { c with send := c.send ++ [message] }
  else
    none

/-- The loop of the `Hub.Run` broadcast case over the client set: returns
(remaining clients, evicted-and-closed clients). -/
def broadcastDeliver : List Client → HubMessage → List Client × List Client
  | [], _ => ([], [])
  | c :: cs, message =>
    let r := broadcastDeliver cs message
    match trySend c message with
    | some c' => (c' :: r.1, r.2)
    | none => (r.1, c :: r.2)

/-- `websocket.Hub.BroadcastEarthquake` composed with the `Run` broadcast
case: build the `new_earthquake` envelope once, deliver it to every client
with queue space, evict the full ones.  Total — no error to the caller. -/
def BroadcastEarthquake (clients : List Client) (eq : Earthquake) :
    List Client × List Client :=
  broadcastDeliver clients { type := "new_earthquake", data := eq }

/-! ## General lemmas about the embedded operations -/

theorem categorize_id (rd : Option RegionData) (eq0 : Earthquake) :
    (CategorizeEarthquake rd eq0).id = eq0.id := by
  cases rd with
  | none => rfl
  | some data =>
    simp only [CategorizeEarthquake]
    repeat' split
    all_goals rfl

theorem lookup_append (l l' : List (String × Earthquake)) (a : String) :
    (l ++ l').lookup a = ((l.lookup a).or (l'.lookup a)) := by
  induction l with
  | nil => simp [List.lookup]
  | cons p t ih =>
    obtain ⟨k, v⟩ := p
    by_cases h : (a == k) = true <;> simp [List.lookup, h, ih]

theorem isCategorized_eq_not_check (eq0 : Earthquake) :
    isCategorized eq0 = !uncategorizedCheck eq0 := by
  simp [isCategorized, uncategorizedCheck, Bool.not_or, bne]

theorem addEarthquake_accepted (rd : Option RegionData) (em : EarthquakeManager)
    (eq0 : Earthquake)
    (h1 : (em.earthquakes.lookup eq0.id).isSome = false)
    (h2 : uncategorizedCheck (CategorizeEarthquake rd eq0) = false) :
    AddEarthquake rd em eq0 =
      (true,
        { em with
          earthquakes :=
            em.earthquakes ++ [(eq0.id, CategorizeEarthquake rd eq0)]
          newEarthquakeChan :=
            if em.newEarthquakeChan.length < em.chanCapacity then
              em.newEarthquakeChan ++ [CategorizeEarthquake rd eq0]
            else
              em.newEarthquakeChan }) := by
  simp only [AddEarthquake, h1, Bool.false_eq_true, if_false, h2, categorize_id]
  split <;> rfl

/-- **C1.** Ingestion is idempotent per identifier: after `ingestOne(E)`,
calling `ingestOne(E)` again returns `false` and changes nothing — the
store's contents, the categorized count and the new-event stream of the
second call's result all equal those after the first call, because an event
whose identifier is already in the index is rejected before any mutation
(and an event the classifier rejects is rejected again identically). -/
theorem ingestOne_idempotent (rd : Option RegionData) (em : EarthquakeManager)
    (eq0 : Earthquake) :
    (AddEarthquake rd (AddEarthquake rd em eq0).2 eq0).1 = false
    ∧ (AddEarthquake rd (AddEarthquake rd em eq0).2 eq0).2
        = (AddEarthquake rd em eq0).2
    ∧ (AddEarthquake rd (AddEarthquake rd em eq0).2 eq0).2.earthquakes
        = (AddEarthquake rd em eq0).2.earthquakes
    ∧ GetCount (AddEarthquake rd (AddEarthquake rd em eq0).2 eq0).2
        = GetCount (AddEarthquake rd em eq0).2
    ∧ (AddEarthquake rd (AddEarthquake rd em eq0).2 eq0).2.newEarthquakeChan
        = (AddEarthquake rd em eq0).2.newEarthquakeChan := by
  have hmain :
      (AddEarthquake rd (AddEarthquake rd em eq0).2 eq0).1 = false
      ∧ (AddEarthquake rd (AddEarthquake rd em eq0).2 eq0).2
          = (AddEarthquake rd em eq0).2 := by
    by_cases h1 : (em.earthquakes.lookup eq0.id).isSome = true
    · simp [AddEarthquake, h1]
    · rw [Bool.not_eq_true] at h1
      by_cases h2 : uncategorizedCheck (CategorizeEarthquake rd eq0) = true
      · simp [AddEarthquake, h1, h2]
      · rw [Bool.not_eq_true] at h2
        rw [addEarthquake_accepted rd em eq0 h1 h2]
        have hlook :
            ((em.earthquakes
                ++ [(eq0.id, CategorizeEarthquake rd eq0)]).lookup eq0.id).isSome
              = true := by
          have hnone : em.earthquakes.lookup eq0.id = none := by
            cases hx : em.earthquakes.lookup eq0.id with
            | none => rfl
            | some v => rw [hx] at h1; simp at h1
          rw [lookup_append, hnone]
          simp [List.lookup]
        simp [AddEarthquake, hlook]
  exact ⟨hmain.1, hmain.2, by rw [hmain.2], by rw [hmain.2], by rw [hmain.2]⟩

def storeInv (em : EarthquakeManager) : Prop :=
  ∀ p ∈ em.earthquakes, isCategorized p.2 = true

theorem storeInv_add (rd : Option RegionData) (eq0 : Earthquake)
    {em : EarthquakeManager} (h : storeInv em) :
    storeInv (AddEarthquake rd em eq0).2 := by
  by_cases h1 : (em.earthquakes.lookup eq0.id).isSome = true
  · simpa [AddEarthquake, h1] using h
  · rw [Bool.not_eq_true] at h1
    by_cases h2 : uncategorizedCheck (CategorizeEarthquake rd eq0) = true
    · simpa [AddEarthquake, h1, h2] using h
    · rw [Bool.not_eq_true] at h2
      rw [addEarthquake_accepted rd em eq0 h1 h2]
      intro p hp
      rcases List.mem_append.mp hp with hmem | hmem
      · exact h p hmem
      · have hp2 : p = (eq0.id, CategorizeEarthquake rd eq0) :=
          List.mem_singleton.mp hmem
        rw [hp2, isCategorized_eq_not_check, h2]
        rfl

theorem storeInv_addMany (rd : Option RegionData) (eqs : List Earthquake)
    {em : EarthquakeManager} (h : storeInv em) :
    storeInv (AddEarthquakes rd em eqs).2 := by
  induction eqs generalizing em with
  | nil => exact h
  | cons e rest ih => exact ih (storeInv_add rd e h)

theorem storeInv_clean (now : ℤ) {em : EarthquakeManager} (h : storeInv em) :
    storeInv (CleanOld em now).2 := by
  intro p hp
  exact h p (List.mem_filter.mp hp).1

theorem reachable_storeInv {em : EarthquakeManager} (hr : Reachable em) :
    storeInv em := by
  induction hr with
  | init maxAge => intro p hp; simp [NewEarthquakeManager] at hp
  | add rd eq0 _ ih => exact storeInv_add rd eq0 ih
  | addMany rd eqs _ ih => exact storeInv_addMany rd eqs ih
  | clean now _ ih => exact storeInv_clean now ih

theorem mem_sortByTimeDesc {e : Earthquake} {l : List Earthquake} :
    e ∈ sortByTimeDesc l ↔ e ∈ l :=
  List.mem_insertionSort timeGE

theorem addEarthquake_rejects_uncategorized (rd : Option RegionData)
    (em : EarthquakeManager) (eq0 : Earthquake)
    (hcat : isCategorized (CategorizeEarthquake rd eq0) = false) :
    AddEarthquake rd em eq0 = (false, em) := by
  have h2 : uncategorizedCheck (CategorizeEarthquake rd eq0) = true := by
    have := isCategorized_eq_not_check (CategorizeEarthquake rd eq0)
    rw [hcat] at this
    cases hx : uncategorizedCheck (CategorizeEarthquake rd eq0)
    · rw [hx] at this; simp at this
    · rfl
  by_cases h1 : (em.earthquakes.lookup eq0.id).isSome = true
  · simp [AddEarthquake, h1]
  · rw [Bool.not_eq_true] at h1
    simp [AddEarthquake, h1, h2]

/-- **C2.** Label-retention invariant: in every reachable state of the
store, every retained record has both labels non-empty and different from
the `Uncategorized` sentinel; consequently an event whose point classifies
as uncategorized is rejected by `AddEarthquake` (returns `false`, state and
categorized count unchanged), and an event with invalid labels is present
in no query result. -/
theorem label_retention_invariant (em : EarthquakeManager)
    (hr : Reachable em) :
    (∀ p ∈ em.earthquakes, isCategorized p.2 = true)
    ∧ (∀ (rd : Option RegionData) (eq0 : Earthquake),
        isCategorized (CategorizeEarthquake rd eq0) = false →
          AddEarthquake rd em eq0 = (false, em)
          ∧ GetCount (AddEarthquake rd em eq0).2 = GetCount em)
    ∧ (∀ e : Earthquake, isCategorized e = false →
        e ∉ GetAll em
        ∧ (∀ s, e ∉ GetByOceano em s)
        ∧ (∀ s, e ∉ GetByRegion em s)
        ∧ (∀ a b, e ∉ GetByTimeRange em a b)) := by
  have hinv := reachable_storeInv hr
  refine ⟨hinv, ?_, ?_⟩
  · intro rd eq0 hcat
    have := addEarthquake_rejects_uncategorized rd em eq0 hcat
    exact ⟨this, by rw [this]⟩
  · intro e he
    have hnot : ∀ l : List Earthquake,
        (∀ x ∈ l, x ∈ em.earthquakes.map Prod.snd) → e ∉ l := by
      intro l hsub hmem
      have : e ∈ em.earthquakes.map Prod.snd := hsub e hmem
      obtain ⟨p, hp, hpe⟩ := List.mem_map.mp this
      rw [← hpe] at he
      rw [hinv p hp] at he
      exact Bool.true_eq_false.mp he
    refine ⟨?_, ?_, ?_, ?_⟩
    · exact hnot _ fun x hx =>
        (List.mem_filter.mp (mem_sortByTimeDesc.mp hx)).1
    · intro s
      exact hnot _ fun x hx =>
        (List.mem_filter.mp (mem_sortByTimeDesc.mp hx)).1
    · intro s
      exact hnot _ fun x hx =>
        (List.mem_filter.mp (mem_sortByTimeDesc.mp hx)).1
    · intro a b
      exact hnot _ fun x hx =>
        (List.mem_filter.mp (mem_sortByTimeDesc.mp hx)).1

/-- A concrete raw event (no labels yet) used by the witnesses. -/
def wEvent : Earthquake :=
  { id := "w1", magnitude := 4, location := "loc", latitude := 5,
    longitude := 5, depth := 10, time := 0, source := "USGS" }

theorem label_retention_invariant_witness :
    AddEarthquake none (NewEarthquakeManager 0) wEvent
      = (false, NewEarthquakeManager 0)
    ∧ wEvent ∉ GetAll (NewEarthquakeManager 0) := by
  have h := label_retention_invariant (NewEarthquakeManager 0)
    (Reachable.init 0)
  exact ⟨(h.2.1 none wEvent (by decide)).1, (h.2.2 wEvent (by decide)).1⟩

/-- **C3.** The classifier is the first-match-wins evaluation of the fixed
decision list (Pacific checks strictly before Caribbean checks), and in
particular every point inside both a Pacific "local" polygon and a
Caribbean "regional" polygon classifies as basin `Pacifico`, region
`local`. -/
theorem classify_fixed_order (data : RegionData) (eq0 : Earthquake)
    (hp : PointInPolygon ⟨eq0.latitude, eq0.longitude⟩
            data.latlonPacificoLocal = true)
    (_hc : evaluarPuntosMultiples ⟨eq0.latitude, eq0.longitude⟩
            data.latlonCaribeRegional = true) :
    (∀ (data' : RegionData) (eq' : Earthquake),
      ((CategorizeEarthquake (some data') eq').oceano,
       (CategorizeEarthquake (some data') eq').oceanoRegion)
        = firstMatch
            (classifyDecisionList data' ⟨eq'.latitude, eq'.longitude⟩))
    ∧ (CategorizeEarthquake (some data) eq0).oceano = "Pacifico"
    ∧ (CategorizeEarthquake (some data) eq0).oceanoRegion = "local" := by
  have hlist : ∀ (data' : RegionData) (eq' : Earthquake),
      ((CategorizeEarthquake (some data') eq').oceano,
       (CategorizeEarthquake (some data') eq').oceanoRegion)
        = firstMatch
            (classifyDecisionList data' ⟨eq'.latitude, eq'.longitude⟩) := by
    intro data' eq'
    simp only [CategorizeEarthquake, classifyDecisionList, firstMatch]
    repeat' split
    all_goals simp_all
  refine ⟨hlist, ?_⟩
  by_cases hw : PointInPolygon ⟨eq0.latitude, eq0.longitude⟩
      data.latlonCPWorld = true
  · constructor <;>
      simp [CategorizeEarthquake, hw, determinarRegionPacifico, hp]
  · rw [Bool.not_eq_true] at hw
    constructor <;> simp [CategorizeEarthquake, hw, hp]

/-- Region fixture for the precedence witness: the unit square is both the
Pacific "local" polygon and (alone) the Caribbean "regional" group. -/
def testRegions : RegionData :=
  { latlonPacificoLocal := squarePolygon
    latlonCaribeRegional := [squarePolygon] }

theorem squarePolygon_contains_w :
    PointInPolygon ⟨wEvent.latitude, wEvent.longitude⟩ squarePolygon = true := by
  norm_num [PointInPolygon, squarePolygon, rayIntersectsSegment, wEvent,
    List.range_succ]

theorem classify_fixed_order_witness :
    PointInPolygon ⟨wEvent.latitude, wEvent.longitude⟩
        testRegions.latlonPacificoLocal = true
    ∧ evaluarPuntosMultiples ⟨wEvent.latitude, wEvent.longitude⟩
        testRegions.latlonCaribeRegional = true
    ∧ (CategorizeEarthquake (some testRegions) wEvent).oceano = "Pacifico"
    ∧ (CategorizeEarthquake (some testRegions) wEvent).oceanoRegion
        = "local" := by
  have hp : PointInPolygon ⟨wEvent.latitude, wEvent.longitude⟩
      testRegions.latlonPacificoLocal = true := squarePolygon_contains_w
  have hc : evaluarPuntosMultiples ⟨wEvent.latitude, wEvent.longitude⟩
      testRegions.latlonCaribeRegional = true := by
    simpa [evaluarPuntosMultiples, testRegions] using squarePolygon_contains_w
  exact ⟨hp, hc, (classify_fixed_order testRegions wEvent hp hc).2.1,
    (classify_fixed_order testRegions wEvent hp hc).2.2⟩

/-- **C5 counterexample.** With the region configuration never loaded, the
classifier does not set the labels to the `Uncategorized` sentinel: on a
fresh event it leaves both labels empty (the Go function returns before any
assignment). -/
theorem categorize_nil_config_counterexample :
    (CategorizeEarthquake none wEvent).oceano = ""
    ∧ (CategorizeEarthquake none wEvent).oceano ≠ "Uncategorized"
    ∧ (CategorizeEarthquake none wEvent).oceanoRegion = ""
    ∧ (CategorizeEarthquake none wEvent).oceanoRegion ≠ "Uncategorized" := by
  exact ⟨rfl, by decide, rfl, by decide⟩

/-- **C5 (amended).** If the region configuration was never loaded, the
classifier returns the event unchanged (no crash, no label assignment):
labels keep their prior values — empty for a fresh event — and any event
whose basin label is empty is still rejected by ingestion with no state
change. -/
theorem categorize_nil_config_amended :
    (∀ eq0 : Earthquake, CategorizeEarthquake none eq0 = eq0)
    ∧ (∀ (em : EarthquakeManager) (eq0 : Earthquake), eq0.oceano = "" →
        AddEarthquake none em eq0 = (false, em)) := by
  refine ⟨fun _ => rfl, fun em eq0 h => ?_⟩
  apply addEarthquake_rejects_uncategorized
  show isCategorized eq0 = false
  simp [isCategorized, h]

theorem categorize_nil_config_amended_witness :
    CategorizeEarthquake none wEvent = wEvent
    ∧ AddEarthquake none (NewEarthquakeManager 7) wEvent
        = (false, NewEarthquakeManager 7) := by
  exact ⟨categorize_nil_config_amended.1 wEvent,
    categorize_nil_config_amended.2 (NewEarthquakeManager 7) wEvent rfl⟩

/-- **C6.** Acceptance is independent of the new-event stream's capacity:
a non-duplicate, successfully classified event is inserted and accepted
(`true`) whatever the channel state; with a full buffer the notification is
dropped (stream unchanged), with free space it is enqueued. -/
theorem accept_independent_of_channel (rd : Option RegionData)
    (em : EarthquakeManager) (eq0 : Earthquake)
    (h1 : (em.earthquakes.lookup eq0.id).isSome = false)
    (h2 : isCategorized (CategorizeEarthquake rd eq0) = true) :
    (AddEarthquake rd em eq0).1 = true
    ∧ (AddEarthquake rd em eq0).2.earthquakes
        = em.earthquakes ++ [(eq0.id, CategorizeEarthquake rd eq0)]
    ∧ (em.chanCapacity ≤ em.newEarthquakeChan.length →
        (AddEarthquake rd em eq0).2.newEarthquakeChan
          = em.newEarthquakeChan)
    ∧ (em.newEarthquakeChan.length < em.chanCapacity →
        (AddEarthquake rd em eq0).2.newEarthquakeChan
          = em.newEarthquakeChan ++ [CategorizeEarthquake rd eq0]) := by
  have h2' : uncategorizedCheck (CategorizeEarthquake rd eq0) = false := by
    have hx := isCategorized_eq_not_check (CategorizeEarthquake rd eq0)
    rw [h2] at hx
    cases hy : uncategorizedCheck (CategorizeEarthquake rd eq0)
    · rfl
    · rw [hy] at hx; simp at hx
  rw [addEarthquake_accepted rd em eq0 h1 h2']
  refine ⟨rfl, rfl, ?_, ?_⟩
  · intro hfull
    simp [not_lt.mpr hfull]
  · intro hfree
    simp [hfree]

/-- A manager whose new-event stream has no free space (capacity 0). -/
def fullChanManager : EarthquakeManager :=
  { earthquakes := [], maxAge := 604800, chanCapacity := 0,
    newEarthquakeChan := [] }

theorem categorize_w_eval :
    CategorizeEarthquake (some testRegions) wEvent
      = { wEvent with oceano := "Pacifico", oceanoRegion := "local" } := by
  have hw : PointInPolygon ⟨wEvent.latitude, wEvent.longitude⟩
      testRegions.latlonCPWorld = false := by
    norm_num [testRegions, PointInPolygon]
  have hp : PointInPolygon ⟨wEvent.latitude, wEvent.longitude⟩
      testRegions.latlonPacificoLocal = true := squarePolygon_contains_w
  simp [CategorizeEarthquake, hw, hp]

theorem accept_independent_of_channel_witness :
    ((fullChanManager.earthquakes.lookup wEvent.id).isSome = false
        ∧ isCategorized (CategorizeEarthquake (some testRegions) wEvent)
            = true)
    ∧ (AddEarthquake (some testRegions) fullChanManager wEvent).1 = true
    ∧ (AddEarthquake (some testRegions) fullChanManager wEvent).2.earthquakes
        = [(wEvent.id, CategorizeEarthquake (some testRegions) wEvent)]
    ∧ (AddEarthquake (some testRegions)
        fullChanManager wEvent).2.newEarthquakeChan = [] := by
  have hcat : isCategorized (CategorizeEarthquake (some testRegions) wEvent)
      = true := by
    rw [categorize_w_eval]
    decide
  have h := accept_independent_of_channel (some testRegions) fullChanManager
    wEvent (by decide) hcat
  exact ⟨⟨by decide, hcat⟩, h.1, h.2.1, h.2.2.1 (by decide)⟩

theorem mem_cleanOld {em : EarthquakeManager} {now : ℤ}
    {p : String × Earthquake} :
    p ∈ (CleanOld em now).2.earthquakes
      ↔ p ∈ em.earthquakes ∧ ¬ p.2.time < now - em.maxAge := by
  simp [CleanOld, List.mem_filter]

/-- **C7.** Eviction removes exactly the events whose timestamp is older
than `now - maxAge`, leaves every other entry (and the rest of the state)
unchanged, and returns the number removed; with `maxAge` seven days, an
event stamped eight days before `now` is removed while one stamped six days
before `now` is retained. -/
theorem cleanOld_evicts_exactly_old (em : EarthquakeManager) (now : ℤ) :
    (∀ p : String × Earthquake,
      p ∈ (CleanOld em now).2.earthquakes
        ↔ p ∈ em.earthquakes ∧ ¬ p.2.time < now - em.maxAge)
    ∧ (CleanOld em now).1
        = (em.earthquakes.filter
            fun p => decide (p.2.time < now - em.maxAge)).length
    ∧ (CleanOld em now).2.maxAge = em.maxAge
    ∧ (CleanOld em now).2.newEarthquakeChan = em.newEarthquakeChan
    ∧ (∀ (e8 e6 : Earthquake) (em7 : EarthquakeManager),
        em7.maxAge = 7 * 86400 →
        e8.time = now - 8 * 86400 → e6.time = now - 6 * 86400 →
        (("old", e8) ∈ em7.earthquakes →
          ("old", e8) ∉ (CleanOld em7 now).2.earthquakes)
        ∧ (("recent", e6) ∈ em7.earthquakes →
          ("recent", e6) ∈ (CleanOld em7 now).2.earthquakes)) := by
  refine ⟨fun p => mem_cleanOld, ?_, rfl, rfl, ?_⟩
  · simp [CleanOld, List.countP_eq_length_filter]
  · intro e8 e6 em7 hmax h8 h6
    constructor
    · intro hmem hbad
      have h := (mem_cleanOld.mp hbad).2
      apply h
      rw [h8, hmax]
      omega
    · intro hmem
      refine mem_cleanOld.mpr ⟨hmem, ?_⟩
      rw [h6, hmax]
      omega

/-- Eight-day-old retained event for the eviction witness. -/
def wOld : Earthquake :=
  { id := "old", magnitude := 5, location := "", latitude := 1,
    longitude := 1, depth := 0, time := -691200, source := "GEOFON",
    oceano := "Pacifico", oceanoRegion := "local" }

/-- Six-day-old retained event for the eviction witness. -/
def wRecent : Earthquake :=
  { id := "recent", magnitude := 5, location := "", latitude := 1,
    longitude := 1, depth := 0, time := -518400, source := "GEOFON",
    oceano := "Pacifico", oceanoRegion := "local" }

/-- Store with a seven-day retention window holding `wOld` and `wRecent`. -/
def weekStore : EarthquakeManager :=
  { earthquakes := [("old", wOld), ("recent", wRecent)], maxAge := 604800,
    chanCapacity := 100, newEarthquakeChan := [] }

theorem cleanOld_evicts_exactly_old_witness :
    ("old", wOld) ∉ (CleanOld weekStore 0).2.earthquakes
    ∧ ("recent", wRecent) ∈ (CleanOld weekStore 0).2.earthquakes
    ∧ (CleanOld weekStore 0).1 = 1 := by
  have h := cleanOld_evicts_exactly_old weekStore 0
  have h5 := h.2.2.2.2 wOld wRecent weekStore (by decide) (by decide)
    (by decide)
  refine ⟨h5.1 (by decide), h5.2 (by decide), ?_⟩
  rw [h.2.1]
  decide

theorem broadcastDeliver_eq (clients : List Client) (message : HubMessage) :
    broadcastDeliver clients message
      = ((clients.filter fun c => decide (c.send.length < c.sendCap)).map
          (fun c => { c with send := c.send ++ [message] }),
         clients.filter fun c => !decide (c.send.length < c.sendCap)) := by
  induction clients with
  | nil => rfl
  | cons c cs ih =>
    by_cases h : c.send.length < c.sendCap
    · simp [broadcastDeliver, trySend, h, ih]
    · simp [broadcastDeliver, trySend, h, ih]

/-- **C9.** Broadcasting builds the `new_earthquake` envelope once and for
every session enqueues that same payload exactly when the session's private
queue has free space; every session whose queue is full is removed instead
(and no error is raised — the operation is total); with three sessions of
which exactly the middle one is full, the other two receive the payload and
only the full one is evicted. -/
theorem broadcast_backpressure_isolation (clients : List Client)
    (eq0 : Earthquake) (a b c : Client)
    (ha : a.send.length < a.sendCap)
    (hb : ¬ b.send.length < b.sendCap)
    (hc : c.send.length < c.sendCap) :
    (BroadcastEarthquake clients eq0).1
        = (clients.filter fun cl => decide (cl.send.length < cl.sendCap)).map
            (fun cl => { cl with
              send := cl.send ++ [⟨"new_earthquake", eq0⟩] })
    ∧ (BroadcastEarthquake clients eq0).2
        = (clients.filter fun cl => !decide (cl.send.length < cl.sendCap))
    ∧ BroadcastEarthquake [a, b, c] eq0
        = ([{ a with send := a.send ++ [⟨"new_earthquake", eq0⟩] },
            { c with send := c.send ++ [⟨"new_earthquake", eq0⟩] }],
           [b]) := by
  refine ⟨?_, ?_, ?_⟩
  · rw [BroadcastEarthquake, broadcastDeliver_eq]
  · rw [BroadcastEarthquake, broadcastDeliver_eq]
  · rw [BroadcastEarthquake, broadcastDeliver_eq]
    simp [ha, hb, hc]

/-- A payload already sitting in the full client's queue. -/
def wMessage : HubMessage := ⟨"m0", wEvent⟩

def wClientA : Client := ⟨[], 2⟩

def wClientB : Client := ⟨[wMessage], 1⟩

def wClientC : Client := ⟨[], 1⟩

theorem broadcast_backpressure_isolation_witness :
    BroadcastEarthquake [wClientA, wClientB, wClientC] wEvent
      = ([⟨[⟨"new_earthquake", wEvent⟩], 2⟩, ⟨[⟨"new_earthquake", wEvent⟩], 1⟩],
         [wClientB]) := by
  have h := broadcast_backpressure_isolation
    [wClientA, wClientB, wClientC] wEvent wClientA wClientB wClientC
    (by decide) (by decide) (by decide)
  simpa [wClientA, wClientB, wClientC] using h.2.2

/-- **C10.** The slope division of the ray-casting edge test is guarded:
whenever the two strict latitude tests differ (the only case in which the
division is evaluated), the edge's latitudes differ and the denominator
`p2.lat - p1.lat` is nonzero; a horizontal edge is rejected by the guard
without reaching the division. -/
theorem ray_division_guard (point p1 p2 : Point) :
    ((decide (p1.lat > point.lat)) ≠ (decide (p2.lat > point.lat)) →
      p2.lat - p1.lat ≠ 0)
    ∧ (p1.lat = p2.lat → rayIntersectsSegment point p1 p2 = false) := by
  constructor
  · intro hne heq
    apply hne
    have h2 : p2.lat = p1.lat := by
      have := sub_eq_zero.mp heq
      linarith
    rw [h2]
  · intro heq
    simp [rayIntersectsSegment, heq]

theorem ray_division_guard_witness :
    ((10 : ℚ) - 0 ≠ 0)
    ∧ rayIntersectsSegment ⟨5, 5⟩ ⟨0, 1⟩ ⟨0, 9⟩ = false := by
  exact ⟨(ray_division_guard ⟨5, 5⟩ ⟨0, 0⟩ ⟨10, 10⟩).1 (by decide),
    (ray_division_guard ⟨5, 5⟩ ⟨0, 1⟩ ⟨0, 9⟩).2 rfl⟩

theorem rayIntersectsSegment_iff (point p1 p2 : Point) :
    rayIntersectsSegment point p1 p2 = true ↔ edgeCrossesSpec point p1 p2 := by
  unfold rayIntersectsSegment edgeCrossesSpec
  by_cases h1 : p1.lat > point.lat <;> by_cases h2 : p2.lat > point.lat <;>
    simp [h1, h2, Xor']

theorem ray_eq_decide (point p1 p2 : Point) :
    rayIntersectsSegment point p1 p2
      = decide (edgeCrossesSpec point p1 p2) := by
  by_cases hP : edgeCrossesSpec point p1 p2
  · simp [hP, (rayIntersectsSegment_iff point p1 p2).mpr hP]
  · have hray : rayIntersectsSegment point p1 p2 ≠ true :=
      fun hc => hP ((rayIntersectsSegment_iff point p1 p2).mp hc)
    simp only [ne_eq, Bool.not_eq_true] at hray
    simp [hP, hray]

theorem zip_rotate_eq_edges (polygon : Polygon) :
    polygon.zip (polygon.rotate 1)
      = (List.range polygon.length).map
          (fun i => (polygon.getD i ⟨0, 0⟩,
            polygon.getD ((i + 1) % polygon.length) ⟨0, 0⟩)) := by
  apply List.ext_getElem
  · simp
  · intro i h1 h2
    have hi : i < polygon.length := by
      simpa using h2
    have hmod : (i + 1) % polygon.length < polygon.length :=
      Nat.mod_lt _ (Nat.zero_lt_of_lt hi)
    rw [List.getElem_zip, List.getElem_map, List.getElem_range,
      List.getElem_rotate, List.getD_eq_getElem _ _ hi,
      List.getD_eq_getElem _ _ hmod]

theorem pointInPolygon_eq_spec (point : Point) (polygon : Polygon) :
    (PointInPolygon point polygon = true ↔ pointInPolygonSpec point polygon) := by
  unfold PointInPolygon pointInPolygonSpec
  by_cases h : polygon.length < 3
  · simp only [h, if_true]
    constructor
    · intro hc
      exact absurd hc (by simp)
    · intro hc
      exact absurd hc.1 (by omega)
  · have h3 : 3 ≤ polygon.length := Nat.le_of_not_lt h
    simp only [h, if_false]
    rw [zip_rotate_eq_edges, List.countP_map]
    have hcong :
        (List.range polygon.length).countP
            (fun i => rayIntersectsSegment point (polygon.getD i ⟨0, 0⟩)
              (polygon.getD ((i + 1) % polygon.length) ⟨0, 0⟩))
          = (List.range polygon.length).countP
              ((fun e : Point × Point => decide (edgeCrossesSpec point e.1 e.2))
                ∘ (fun i => (polygon.getD i ⟨0, 0⟩,
                    polygon.getD ((i + 1) % polygon.length) ⟨0, 0⟩))) := by
      apply List.countP_congr
      intro i _
      simp only [Function.comp_apply]
      rw [ray_eq_decide]
    rw [← hcong]
    simp [Nat.odd_iff, h3]

/-- **C4.** `PointInPolygon` implements ray casting exactly as the spec
states it: the whole function agrees with the spec-level predicate (≥ 3
vertices and an odd number of crossed closing-loop edges), the per-edge
test agrees with the spec's strict-straddle-and-interpolation formula, a
polygon with fewer than 3 points contains no point, and on the square
fixture `(5,5)` is inside while `(15,15)` is not. -/
theorem pointInPolygon_matches_spec (point : Point) (polygon : Polygon)
    (p1 p2 : Point) :
    (PointInPolygon point polygon = true ↔ pointInPolygonSpec point polygon)
    ∧ (rayIntersectsSegment point p1 p2 = true ↔ edgeCrossesSpec point p1 p2)
    ∧ (polygon.length < 3 → PointInPolygon point polygon = false)
    ∧ PointInPolygon ⟨5, 5⟩ squarePolygon = true
    ∧ PointInPolygon ⟨15, 15⟩ squarePolygon = false
    ∧ PointInPolygon point [⟨0, 0⟩, ⟨0, 10⟩] = false := by
  refine ⟨pointInPolygon_eq_spec point polygon,
    rayIntersectsSegment_iff point p1 p2, ?_, ?_, ?_, rfl⟩
  · intro h
    simp [PointInPolygon, h]
  · norm_num [PointInPolygon, squarePolygon, rayIntersectsSegment,
      List.range_succ]
  · norm_num [PointInPolygon, squarePolygon, rayIntersectsSegment,
      List.range_succ]

theorem pointInPolygon_matches_spec_witness :
    ([(⟨0, 0⟩ : Point), ⟨0, 10⟩].length < 3)
    ∧ PointInPolygon ⟨7, 7⟩ [⟨0, 0⟩, ⟨0, 10⟩] = false
    ∧ PointInPolygon ⟨5, 5⟩ squarePolygon = true
    ∧ PointInPolygon ⟨15, 15⟩ squarePolygon = false := by
  have h := pointInPolygon_matches_spec ⟨7, 7⟩ [⟨0, 0⟩, ⟨0, 10⟩] ⟨0, 0⟩ ⟨0, 10⟩
  have hsq := pointInPolygon_matches_spec ⟨7, 7⟩ squarePolygon ⟨0, 0⟩ ⟨0, 10⟩
  exact ⟨by decide, h.2.2.1 (by decide), hsq.2.2.2.1, hsq.2.2.2.2.1⟩

theorem sorted_sortByTimeDesc (l : List Earthquake) :
    List.Sorted timeGE (sortByTimeDesc l) :=
  List.sorted_insertionSort timeGE l

theorem perm_sortByTimeDesc (l : List Earthquake) :
    (sortByTimeDesc l).Perm l :=
  List.perm_insertionSort timeGE l

theorem sorted_perm_three {e1 e2 e3 : Earthquake} {l : List Earthquake}
    (hp : l.Perm [e1, e2, e3]) (hs : List.Sorted timeGE l)
    (h12 : e1.time < e2.time) (h23 : e2.time < e3.time) :
    l = [e3, e2, e1] := by
  have hlen : l.length = 3 := by rw [hp.length_eq]; rfl
  rcases l with _ | ⟨a, _ | ⟨b, _ | ⟨c, _ | ⟨d, t⟩⟩⟩⟩ <;> simp at hlen
  rw [List.sorted_cons] at hs
  obtain ⟨hafirst, hs⟩ := hs
  rw [List.sorted_cons] at hs
  obtain ⟨hbfirst, _⟩ := hs
  have hab : b.time ≤ a.time := hafirst b (by simp)
  have hac : c.time ≤ a.time := hafirst c (by simp)
  have hbc : c.time ≤ b.time := hbfirst c (by simp)
  -- the head is the event with the greatest timestamp, e3
  have h3mem : e3 ∈ [a, b, c] := hp.mem_iff.mpr (by simp)
  have hage : e3.time ≤ a.time := by
    simp at h3mem
    rcases h3mem with h | h | h
    · rw [h]
    · rw [h]; exact hab
    · rw [h]; exact hac
  have hamem : a ∈ [e1, e2, e3] := hp.subset (by simp)
  have ha : a = e3 := by
    simp at hamem
    rcases hamem with h | h | h
    · rw [h] at hage; omega
    · rw [h] at hage; omega
    · exact h
  rw [ha] at hp ⊢
  -- cancel e3 from the permutation
  have hswap3 : ([e1, e2, e3] : List Earthquake).Perm (e3 :: [e1, e2]) := by
    simpa using @List.perm_append_comm Earthquake [e1, e2] [e3]
  have hbc_perm : ([b, c] : List Earthquake).Perm [e1, e2] :=
    (hp.trans hswap3).cons_inv
  -- the next element is e2
  have h2mem : e2 ∈ [b, c] := hbc_perm.mem_iff.mpr (by simp)
  have hbge : e2.time ≤ b.time := by
    simp at h2mem
    rcases h2mem with h | h
    · rw [h]
    · rw [h]; exact hbc
  have hbmem : b ∈ [e1, e2] := hbc_perm.subset (by simp)
  have hb : b = e2 := by
    simp at hbmem
    rcases hbmem with h | h
    · rw [h] at hbge; omega
    · exact h
  rw [hb] at hbc_perm ⊢
  have hswap2 : ([e1, e2] : List Earthquake).Perm (e2 :: [e1]) := by
    simpa using @List.perm_append_comm Earthquake [e1] [e2]
  have hc_perm : ([c] : List Earthquake).Perm [e1] :=
    (hbc_perm.trans hswap2).cons_inv
  have hc : c = e1 := by
    have := List.perm_singleton.mp hc_perm
    simpa using this
  rw [hc]

/-- **C8.** Every query result is sorted by occurrence timestamp
descending; in a reachable state every query returns only categorized
events, and `GetAll` re-filters defensively so its results are categorized
in *any* state; for three stored events with strictly increasing timestamps
T1 < T2 < T3, `GetAll` returns them most recent first regardless of the
insertion order recorded in the store. -/
theorem query_ordering (em : EarthquakeManager) (hr : Reachable em) :
    List.Sorted timeGE (GetAll em)
    ∧ (∀ o, List.Sorted timeGE (GetByOceano em o))
    ∧ (∀ rg, List.Sorted timeGE (GetByRegion em rg))
    ∧ (∀ a b, List.Sorted timeGE (GetByTimeRange em a b))
    ∧ (∀ em' : EarthquakeManager, ∀ e ∈ GetAll em', isCategorized e = true)
    ∧ (∀ o, ∀ e ∈ GetByOceano em o, isCategorized e = true)
    ∧ (∀ rg, ∀ e ∈ GetByRegion em rg, isCategorized e = true)
    ∧ (∀ a b, ∀ e ∈ GetByTimeRange em a b, isCategorized e = true)
    ∧ (∀ (e1 e2 e3 : Earthquake) (em' : EarthquakeManager),
        e1.time < e2.time → e2.time < e3.time →
        isCategorized e1 = true → isCategorized e2 = true →
        isCategorized e3 = true →
        (em'.earthquakes.map Prod.snd).Perm [e1, e2, e3] →
        GetAll em' = [e3, e2, e1]) := by
  have hinv := reachable_storeInv hr
  have hmem : ∀ (l : List Earthquake) (f : Earthquake → Bool) (e : Earthquake),
      e ∈ sortByTimeDesc ((em.earthquakes.map Prod.snd).filter f) →
      isCategorized e = true := by
    intro l f e he
    have : e ∈ em.earthquakes.map Prod.snd :=
      (List.mem_filter.mp (mem_sortByTimeDesc.mp he)).1
    obtain ⟨p, hp, hpe⟩ := List.mem_map.mp this
    rw [← hpe]
    exact hinv p hp
  refine ⟨sorted_sortByTimeDesc _,
    fun o => sorted_sortByTimeDesc _,
    fun rg => sorted_sortByTimeDesc _,
    fun a b => sorted_sortByTimeDesc _,
    ?_, ?_, ?_, ?_, ?_⟩
  · intro em' e he
    exact (List.mem_filter.mp (mem_sortByTimeDesc.mp he)).2
  · intro o e he
    exact hmem [] _ e he
  · intro rg e he
    exact hmem [] _ e he
  · intro a b e he
    exact hmem [] _ e he
  · intro e1 e2 e3 em' h12 h23 hc1 hc2 hc3 hperm
    unfold GetAll
    have hfilter : (em'.earthquakes.map Prod.snd).filter isCategorized
        = em'.earthquakes.map Prod.snd := by
      apply List.filter_eq_self.mpr
      intro a ha
      have hmem3 : a ∈ [e1, e2, e3] := hperm.subset ha
      simp at hmem3
      rcases hmem3 with h | h | h <;> rw [h] <;> assumption
    rw [hfilter]
    exact sorted_perm_three ((perm_sortByTimeDesc _).trans hperm)
      (sorted_sortByTimeDesc _) h12 h23

/-- Three categorized events with increasing timestamps for the ordering
witness. -/
def wE1 : Earthquake :=
  { id := "t1", magnitude := 5, location := "", latitude := 1,
    longitude := 1, depth := 0, time := 100, source := "SGC",
    oceano := "Pacifico", oceanoRegion := "local" }

def wE2 : Earthquake :=
  { id := "t2", magnitude := 5, location := "", latitude := 1,
    longitude := 1, depth := 0, time := 200, source := "SGC",
    oceano := "Caribe", oceanoRegion := "regional" }

def wE3 : Earthquake :=
  { id := "t3", magnitude := 5, location := "", latitude := 1,
    longitude := 1, depth := 0, time := 300, source := "SGC",
    oceano := "Pacifico", oceanoRegion := "lejano" }

/-- A store holding the three events out of timestamp order. -/
def scrambledStore : EarthquakeManager :=
  { earthquakes := [("t2", wE2), ("t1", wE1), ("t3", wE3)],
    maxAge := 604800, chanCapacity := 100, newEarthquakeChan := [] }

theorem query_ordering_witness :
    GetAll scrambledStore = [wE3, wE2, wE1] := by
  have h := query_ordering (NewEarthquakeManager 0) (Reachable.init 0)
  have hperm : (scrambledStore.earthquakes.map Prod.snd).Perm
      [wE1, wE2, wE3] := by
    show ([wE2, wE1, wE3] : List Earthquake).Perm [wE1, wE2, wE3]
    exact List.Perm.swap wE1 wE2 [wE3]
  exact h.2.2.2.2.2.2.2.2 wE1 wE2 wE3 scrambledStore (by decide) (by decide)
    (by decide) (by decide) (by decide) hperm
